import Mathlib

/-!
Verification of the photoelectric-screen sensor pipeline (`server.py`,
`microcontroller_data_sender.py`): a shallow embedding of the frame codec
(`struct.pack`/`struct.unpack` with format `<16384h` plus division by 10.0),
the UDP listener / transfer queue / decoder pipeline, and the two Flask
routes, together with proofs of the specified properties.

Buffers are modelled as `List ℕ` whose elements are the bytes of the wire
frame; grids are `List ℚ` (the Python code's floats perform only the exact
operation `v / 10.0` on integers recovered from the wire, so rationals are a
faithful carrier for the stated equalities).
-/

-- Matrix dimensions (server.py lines 15-17).
def MATRIX_N : ℕ := 128

def EXPECTED_ARRAY_SIZE : ℕ := MATRIX_N * MATRIX_N

def EXPECTED_SIZE_BYTES : ℕ := EXPECTED_ARRAY_SIZE * 2

/-- Two's-complement 16-bit image of a signed value, as `struct.pack '<h'`
lays it out before splitting into bytes. -/
def toUnsigned16 (v : ℤ) : ℕ := (v % 65536).toNat

/-- Little-endian byte serialization of a list of int16 values: each value
contributes its low byte then its high byte (`struct.pack` format `<...h`). -/
def packBytes (vs : List ℤ) : List ℕ :=
  vs.flatMap fun v => [toUnsigned16 v % 256, toUnsigned16 v / 256]

/-- Signed interpretation of a 16-bit word (two's complement), as
`struct.unpack 'h'` performs it. -/
def toSigned16 (n : ℕ) : ℤ :=
  if n % 65536 < 32768 then (n % 65536 : ℤ) else (n % 65536 : ℤ) - 65536

/-- Little-endian deserialization of consecutive byte pairs into int16
values (`struct.unpack` format `<...h`). -/
def unpack16 : List ℕ → List ℤ
  | b0 :: b1 :: rest => toSigned16 (b0 + 256 * b1) :: unpack16 rest
  | _ => []

/-- `struct.unpack('<16384h', buf)`: demands the exact byte length
(otherwise `struct.error` is raised, modelled as `none`), then splits the
buffer into 16384 little-endian signed shorts. -/
def struct_unpack_16384h (buf : List ℕ) : Option (List ℤ) :=
  if buf.length = EXPECTED_SIZE_BYTES then some (unpack16 buf) else none

/-- The decode step of `process_buffer_thread` (server.py lines 80-83):
unpack the binary frame, then divide every value by 10.0. -/
def decode (buf : List ℕ) : Option (List ℚ) :=
  (struct_unpack_16384h buf).map fun arr => arr.map fun v => (v : ℚ) / 10

/-- `struct.pack('<16384h', *vs)`: raises `struct.error` (modelled as
`none`) unless exactly 16384 arguments are given and each fits in a signed
16-bit integer; otherwise produces the 32768-byte little-endian buffer. -/
def struct_pack_16384h (vs : List ℤ) : Option (List ℕ) :=
  if vs.length = EXPECTED_ARRAY_SIZE ∧ ∀ v ∈ vs, -32768 ≤ v ∧ v ≤ 32767
  then some (packBytes vs) else none

-- Codec lemmas ---------------------------------------------------------

theorem packBytes_length (vs : List ℤ) : (packBytes vs).length = 2 * vs.length := by
  induction vs with
  | nil => rfl
  | cons v vs ih => simp [packBytes] at ih ⊢; omega

theorem toSigned16_toUnsigned16 (v : ℤ) (h1 : -32768 ≤ v) (h2 : v ≤ 32767) :
    toSigned16 (toUnsigned16 v) = v := by
  unfold toSigned16 toUnsigned16
  split <;> omega

theorem packBytes_cons (v : ℤ) (vs : List ℤ) :
    packBytes (v :: vs)
      = toUnsigned16 v % 256 :: toUnsigned16 v / 256 :: packBytes vs := by
  simp [packBytes]

theorem unpack16_packBytes (vs : List ℤ)
    (h : ∀ v ∈ vs, -32768 ≤ v ∧ v ≤ 32767) :
    unpack16 (packBytes vs) = vs := by
  induction vs with
  | nil => rfl
  | cons v vs ih =>
    have hv := h v (List.mem_cons_self v vs)
    have hrest : ∀ w ∈ vs, -32768 ≤ w ∧ w ≤ 32767 :=
      fun w hw => h w (List.mem_cons_of_mem v hw)
    have hu : toUnsigned16 v % 256 + 256 * (toUnsigned16 v / 256) = toUnsigned16 v :=
      Nat.mod_add_div (toUnsigned16 v) 256
    rw [packBytes_cons, unpack16, hu, ih hrest,
      toSigned16_toUnsigned16 v hv.1 hv.2]

theorem decode_packBytes (vs : List ℤ)
    (hlen : vs.length = EXPECTED_ARRAY_SIZE)
    (hrange : ∀ v ∈ vs, -32768 ≤ v ∧ v ≤ 32767) :
    decode (packBytes vs) = some (vs.map fun v => (v : ℚ) / 10) := by
  unfold decode struct_unpack_16384h
  rw [packBytes_length, hlen]
  simp [EXPECTED_SIZE_BYTES, Nat.mul_comm, unpack16_packBytes vs hrange]

/-- C1: for every array of 16384 integers each within [-32768, 32767],
encoding with `struct.pack('<16384h', ...)` succeeds and decoding the
resulting buffer (unpack with the same format, then division by 10.0)
yields the grid whose element i is values[i]/10.0. -/
theorem C1_roundtrip (vs : List ℤ)
    (hlen : vs.length = EXPECTED_ARRAY_SIZE)
    (hrange : ∀ v ∈ vs, -32768 ≤ v ∧ v ≤ 32767) :
    struct_pack_16384h vs = some (packBytes vs) ∧
      decode (packBytes vs) = some (vs.map fun v => (v : ℚ) / 10) := by
  constructor
  · unfold struct_pack_16384h
    rw [if_pos ⟨hlen, hrange⟩]
  · exact decode_packBytes vs hlen hrange

theorem C1_roundtrip_witness :
    struct_pack_16384h (List.replicate EXPECTED_ARRAY_SIZE 0)
        = some (packBytes (List.replicate EXPECTED_ARRAY_SIZE 0)) ∧
      decode (packBytes (List.replicate EXPECTED_ARRAY_SIZE 0))
        = some ((List.replicate EXPECTED_ARRAY_SIZE (0 : ℤ)).map fun v => (v : ℚ) / 10) :=
  C1_roundtrip (List.replicate EXPECTED_ARRAY_SIZE 0)
    (by simp) (by simp)

theorem decode_eq_none_of_length (buf : List ℕ)
    (h : buf.length ≠ EXPECTED_SIZE_BYTES) :
    decode buf = none := by
  unfold decode struct_unpack_16384h
  rw [if_neg h]
  rfl

theorem decode_some_length (b : List ℕ) (g : List ℚ)
    (h : decode b = some g) : b.length = EXPECTED_SIZE_BYTES := by
  by_contra hne
  rw [decode_eq_none_of_length b hne] at h
  exact Option.noConfusion h

/-- C2: decoding any buffer whose byte length is not exactly 32768 fails
(`struct.unpack` raises `struct.error`, caught in `process_buffer_thread`)
and produces no grid at all. -/
theorem C2_invalid_length (buf : List ℕ)
    (h : buf.length ≠ EXPECTED_SIZE_BYTES) :
    decode buf = none :=
  decode_eq_none_of_length buf h

theorem C2_invalid_length_witness : decode [0] = none :=
  C2_invalid_length [0] (by decide)

-- Pipeline model --------------------------------------------------------

/-- State of the ingestion pipeline: whether the UDP socket bound
successfully (the listener exits immediately on bind failure, server.py
lines 39-44), the transfer queue `data_buffer` of raw frames, and the
latest-state store `latest_sensor_matrix` (a grid, or `none` before the
first publish; the code stores no timestamp with it). -/
structure PState where
  bound : Bool
  queue : List (List ℕ)
  latest : Option (List ℚ)

/-- Pipeline events: the listener receiving one datagram, and the decoder
performing one iteration of its loop (pop a buffer if any, decode, publish
on success). -/
inductive Ev where
  | recv (b : List ℕ)
  | pop

/-- Initial pipeline state: empty queue, no published matrix; `bound`
records the outcome of the socket bind. -/
def init (bound : Bool) : PState := ⟨bound, [], none⟩

/-- One pipeline event. `recv`: the listener only runs its receive loop
after a successful bind, and pushes the datagram onto `data_buffer` exactly
when its length equals `EXPECTED_SIZE_BYTES`, discarding it otherwise
(server.py lines 46-53). `pop`: the decoder pops one buffer; on successful
unpack it publishes the scaled grid, on `struct.error` it logs and
continues with the store unchanged (server.py lines 77-96). -/
def applyEv (s : PState) : Ev → PState
  | .recv b =>
      if s.bound = true ∧ b.length = EXPECTED_SIZE_BYTES
      then ⟨s.bound, s.queue ++ [b], s.latest⟩
      else s
  | .pop =>
      match s.queue with
      | [] => s
      | b :: rest =>
        match decode b with
        | some g => ⟨s.bound, rest, some g⟩
        | none => ⟨s.bound, rest, s.latest⟩

/-- The pipeline after a sequence of events, starting from startup with the
given bind outcome. -/
def run (bound : Bool) (evs : List Ev) : PState :=
  evs.foldl applyEv (init bound)

/-- The `/latest_matrix` route (server.py lines 132-148): a no-data
response when `latest_sensor_matrix` is `None`, else a JSON body holding
the current matrix together with `datetime.now()` taken at read time,
modelled by the `now` argument. -/
def get_latest_matrix (s : PState) (now : ℕ) : Option (ℕ × List ℚ) :=
  s.latest.map fun g => (now, g)

/-- The decoder draining a queue sequentially: each successfully decoded
buffer replaces the published grid, failed buffers are skipped. -/
def drainQ (l : Option (List ℚ)) : List (List ℕ) → Option (List ℚ)
  | [] => l
  | b :: rest =>
    match decode b with
    | some g => drainQ (some g) rest
    | none => drainQ l rest

/-- An event is a successful publish when it is a decoder iteration that
pops a buffer which decodes successfully. -/
def IsPublish (s : PState) (e : Ev) : Prop :=
  e = .pop ∧ ∃ b rest, s.queue = b :: rest ∧ (decode b).isSome

/-- Whether some event of the trace, executed from `s`, successfully
publishes a grid. -/
def PublishIn (s : PState) : List Ev → Prop
  | [] => False
  | e :: es => IsPublish s e ∨ PublishIn (applyEv s e) es

-- Pipeline lemmas -------------------------------------------------------

theorem applyEv_bound (s : PState) (e : Ev) : (applyEv s e).bound = s.bound := by
  cases e with
  | recv b =>
    simp only [applyEv]
    split <;> rfl
  | pop =>
    simp only [applyEv]
    rcases s.queue with _ | ⟨b, rest⟩
    · rfl
    · rcases hd : decode b with _ | g <;> simp [hd]

theorem latest_unchanged_of_not_publish (s : PState) (e : Ev)
    (h : ¬ IsPublish s e) : (applyEv s e).latest = s.latest := by
  cases e with
  | recv b =>
    simp only [applyEv]
    split <;> rfl
  | pop =>
    simp only [applyEv]
    rcases hq : s.queue with _ | ⟨b, rest⟩
    · rfl
    · rcases hd : decode b with _ | g
      · simp [hd]
      · exact absurd ⟨rfl, b, rest, hq, by simp [hd]⟩ h

theorem latest_isSome_mono (s : PState) (e : Ev)
    (h : s.latest.isSome) : (applyEv s e).latest.isSome := by
  cases e with
  | recv b =>
    simp only [applyEv]
    split <;> simpa
  | pop =>
    simp only [applyEv]
    rcases s.queue with _ | ⟨b, rest⟩
    · simpa
    · rcases hd : decode b with _ | g <;> simp [hd, h]

theorem latest_unchanged_of_no_publish (evs : List Ev) :
    ∀ s : PState, ¬ PublishIn s evs →
      (evs.foldl applyEv s).latest = s.latest := by
  induction evs with
  | nil => intro s _; rfl
  | cons e es ih =>
    intro s h
    rw [List.foldl_cons]
    have h1 : ¬ IsPublish s e := fun hp => h (Or.inl hp)
    have h2 : ¬ PublishIn (applyEv s e) es := fun hp => h (Or.inr hp)
    rw [ih (applyEv s e) h2, latest_unchanged_of_not_publish s e h1]

theorem latest_isSome_foldl (evs : List Ev) :
    ∀ s : PState, s.latest.isSome → (evs.foldl applyEv s).latest.isSome := by
  induction evs with
  | nil => intro s h; exact h
  | cons e es ih =>
    intro s h
    rw [List.foldl_cons]
    exact ih (applyEv s e) (latest_isSome_mono s e h)

-- Concrete frames used as witnesses ------------------------------------

/-- 16384 zero samples. -/
def zeroVals : List ℤ := List.replicate EXPECTED_ARRAY_SIZE 0

/-- The wire frame of all-zero samples. -/
def zeroFrame : List ℕ := packBytes zeroVals

/-- Grid decoded from the all-zero frame. -/
def zeroGrid : List ℚ := zeroVals.map fun v => (v : ℚ) / 10

/-- Samples with element 0 equal to 1000 and the rest 0. -/
def spikeVals : List ℤ := 1000 :: List.replicate (EXPECTED_ARRAY_SIZE - 1) 0

/-- The wire frame of the spike samples. -/
def spikeFrame : List ℕ := packBytes spikeVals

/-- Grid decoded from the spike frame. -/
def spikeGrid : List ℚ := spikeVals.map fun v => (v : ℚ) / 10

theorem zeroVals_length : zeroVals.length = EXPECTED_ARRAY_SIZE := by
  simp [zeroVals]

theorem zeroVals_range : ∀ v ∈ zeroVals, -32768 ≤ v ∧ v ≤ 32767 := by
  intro v hv
  simp [zeroVals] at hv
  omega

theorem spikeVals_length : spikeVals.length = EXPECTED_ARRAY_SIZE := by
  have h : EXPECTED_ARRAY_SIZE = 16384 := by norm_num [EXPECTED_ARRAY_SIZE, MATRIX_N]
  simp only [spikeVals, List.length_cons, List.length_replicate, h]

theorem spikeVals_range : ∀ v ∈ spikeVals, -32768 ≤ v ∧ v ≤ 32767 := by
  intro v hv
  simp [spikeVals] at hv
  rcases hv with h | h <;> omega

theorem zeroFrame_length : zeroFrame.length = EXPECTED_SIZE_BYTES := by
  simp [zeroFrame, packBytes_length, zeroVals_length, EXPECTED_SIZE_BYTES,
    Nat.mul_comm]

theorem spikeFrame_length : spikeFrame.length = EXPECTED_SIZE_BYTES := by
  simp [spikeFrame, packBytes_length, spikeVals_length, EXPECTED_SIZE_BYTES,
    Nat.mul_comm]

theorem decode_zeroFrame : decode zeroFrame = some zeroGrid :=
  decode_packBytes zeroVals zeroVals_length zeroVals_range

theorem decode_spikeFrame : decode spikeFrame = some spikeGrid :=
  decode_packBytes spikeVals spikeVals_length spikeVals_range

theorem zeroVals_eq_cons : zeroVals = 0 :: List.replicate 16383 0 := by
  show List.replicate EXPECTED_ARRAY_SIZE 0 = _
  rw [show EXPECTED_ARRAY_SIZE = 16383 + 1 by norm_num [EXPECTED_ARRAY_SIZE, MATRIX_N],
    List.replicate_succ]

theorem zeroGrid_head : zeroGrid.head? = some 0 := by
  show (zeroVals.map fun v => (v : ℚ) / 10).head? = some 0
  rw [zeroVals_eq_cons]
  norm_num

theorem spikeGrid_head : spikeGrid.head? = some 100 := by
  show ((spikeVals).map fun v => (v : ℚ) / 10).head? = some 100
  show (((1000 : ℤ) :: List.replicate (EXPECTED_ARRAY_SIZE - 1) 0).map
    fun v => (v : ℚ) / 10).head? = some 100
  norm_num

theorem zeroGrid_ne_spikeGrid : zeroGrid ≠ spikeGrid := by
  intro h
  have h0 := zeroGrid_head
  rw [h, spikeGrid_head] at h0
  have : (100 : ℚ) = 0 := by injection h0
  norm_num at this

theorem applyEv_recv_ok (s : PState) (b : List ℕ) (hb : s.bound = true)
    (hl : b.length = EXPECTED_SIZE_BYTES) :
    applyEv s (Ev.recv b) = ⟨s.bound, s.queue ++ [b], s.latest⟩ := by
  simp only [applyEv]
  rw [if_pos ⟨hb, hl⟩]

theorem applyEv_pop_cons (s : PState) (b : List ℕ) (rest : List (List ℕ))
    (g : List ℚ) (hq : s.queue = b :: rest) (hd : decode b = some g) :
    applyEv s Ev.pop = ⟨s.bound, rest, some g⟩ := by
  simp only [applyEv, hq, hd]

theorem run_recv_zero : run true [Ev.recv zeroFrame] = ⟨true, [zeroFrame], none⟩ := by
  unfold run
  rw [List.foldl_cons, List.foldl_nil,
    applyEv_recv_ok (init true) zeroFrame rfl zeroFrame_length]
  simp [init]

theorem run_zero_pop :
    run true [Ev.recv zeroFrame, Ev.pop] = ⟨true, [], some zeroGrid⟩ := by
  unfold run
  rw [List.foldl_cons, List.foldl_cons, List.foldl_nil,
    applyEv_recv_ok (init true) zeroFrame rfl zeroFrame_length,
    applyEv_pop_cons ⟨(init true).bound, (init true).queue ++ [zeroFrame],
      (init true).latest⟩ zeroFrame [] zeroGrid rfl decode_zeroFrame]
  simp [init]

-- C3 --------------------------------------------------------------------

theorem read_isSome (s : PState) (t : ℕ) :
    (get_latest_matrix s t).isSome = s.latest.isSome := by
  simp [get_latest_matrix]

/-- C3: before any successful publish, `/latest_matrix` reads return the
no-data response; once a grid has been published, no later read in any
continuation of the execution returns the no-data response again. -/
theorem C3_absent_until_publish :
    (∀ evs t, ¬ PublishIn (init true) evs → get_latest_matrix (run true evs) t = none) ∧
    (∀ evs evs2 t, (get_latest_matrix (run true evs) t).isSome →
      (get_latest_matrix (run true (evs ++ evs2)) t).isSome) := by
  constructor
  · intro evs t h
    have : (run true evs).latest = (init true).latest :=
      latest_unchanged_of_no_publish evs (init true) h
    simp [get_latest_matrix, this, init]
  · intro evs evs2 t h
    rw [read_isSome] at h ⊢
    rw [run, List.foldl_append]
    exact latest_isSome_foldl evs2 (run true evs) h

theorem C3_absent_until_publish_witness :
    get_latest_matrix (run true []) 0 = none ∧
      (get_latest_matrix (run true ([Ev.recv zeroFrame, Ev.pop] ++ [Ev.pop])) 0).isSome := by
  constructor
  · exact C3_absent_until_publish.1 [] 0 (by simp [PublishIn])
  · exact C3_absent_until_publish.2 [Ev.recv zeroFrame, Ev.pop] [Ev.pop] 0
      (by rw [run_zero_pop]; rfl)

-- C4 --------------------------------------------------------------------

theorem applyEv_queue_mem (s : PState) (e : Ev) (b : List ℕ)
    (h : b ∈ (applyEv s e).queue) :
    b ∈ s.queue ∨ b.length = EXPECTED_SIZE_BYTES := by
  cases e with
  | recv c =>
    simp only [applyEv] at h
    by_cases hc : s.bound = true ∧ c.length = EXPECTED_SIZE_BYTES
    · rw [if_pos hc] at h
      simp at h
      rcases h with h | h
      · exact Or.inl h
      · subst h; exact Or.inr hc.2
    · rw [if_neg hc] at h
      exact Or.inl h
  | pop =>
    simp only [applyEv] at h
    rcases hq : s.queue with _ | ⟨hd, rest⟩
    · rw [hq] at h
      exact Or.inl (hq ▸ h)
    · rw [hq] at h
      rcases hd2 : decode hd with _ | g
      · simp [hd2] at h
        exact Or.inl (List.mem_cons_of_mem hd h)
      · simp [hd2] at h
        exact Or.inl (List.mem_cons_of_mem hd h)

theorem queue_wf_foldl (evs : List Ev) :
    ∀ s : PState, (∀ b ∈ s.queue, b.length = EXPECTED_SIZE_BYTES) →
      ∀ b ∈ (evs.foldl applyEv s).queue, b.length = EXPECTED_SIZE_BYTES := by
  induction evs with
  | nil => intro s h; exact h
  | cons e es ih =>
    intro s h
    rw [List.foldl_cons]
    refine ih (applyEv s e) ?_
    intro b hb
    rcases applyEv_queue_mem s e b hb with h2 | h2
    · exact h b h2
    · exact h2

/-- C4: a datagram whose length differs from 32768 bytes is discarded by
the listener without modifying the pipeline state, and consequently every
buffer ever held by the transfer queue has length exactly 32768. -/
theorem C4_bad_size_discarded :
    (∀ (s : PState) (b : List ℕ), b.length ≠ EXPECTED_SIZE_BYTES →
      applyEv s (Ev.recv b) = s) ∧
    (∀ (bound : Bool) (evs : List Ev) (b : List ℕ),
      b ∈ (run bound evs).queue → b.length = EXPECTED_SIZE_BYTES) := by
  constructor
  · intro s b h
    simp only [applyEv]
    rw [if_neg (fun hc => h hc.2)]
  · intro bound evs b hb
    exact queue_wf_foldl evs (init bound) (by simp [init]) b hb

theorem C4_bad_size_discarded_witness :
    applyEv (init true) (Ev.recv [0]) = init true ∧
      zeroFrame.length = EXPECTED_SIZE_BYTES := by
  constructor
  · exact C4_bad_size_discarded.1 (init true) [0] (by decide)
  · exact C4_bad_size_discarded.2 true [Ev.recv zeroFrame] zeroFrame
      (by rw [run_recv_zero]; simp)

-- C5 --------------------------------------------------------------------

/-- C5 counterexample: after the all-zero grid has been published, two
reads of the same unchanged state at clock instants 0 and 1 return
different (timestamp, grid) pairs, because `get_latest_matrix` stamps the
response with `datetime.now()` taken at read time rather than a timestamp
recorded at publish time. -/
theorem C5_counterexample :
    get_latest_matrix (run true [Ev.recv zeroFrame, Ev.pop]) 0
      ≠ get_latest_matrix (run true [Ev.recv zeroFrame, Ev.pop]) 1 := by
  rw [run_zero_pop]
  simp [get_latest_matrix]

/-- C5 amended: after at least one publish, `get_latest_matrix` returns the
most recently published grid, paired with a timestamp generated at read
time; two reads of the same unchanged state agree on the grid, while their
timestamps are the respective read instants. -/
theorem C5_amended_latest_grid :
    (∀ (s : PState) (b : List ℕ) (rest : List (List ℕ)) (g : List ℚ) (t : ℕ),
      s.queue = b :: rest → decode b = some g →
      get_latest_matrix (applyEv s Ev.pop) t = some (t, g)) ∧
    (∀ (s : PState) (g : List ℚ) (t1 t2 : ℕ), s.latest = some g →
      get_latest_matrix s t1 = some (t1, g) ∧
        (get_latest_matrix s t2).map Prod.snd = some g) := by
  constructor
  · intro s b rest g t hq hd
    rw [applyEv_pop_cons s b rest g hq hd]
    simp [get_latest_matrix]
  · intro s g t1 t2 h
    simp [get_latest_matrix, h]

theorem C5_amended_latest_grid_witness :
    get_latest_matrix (applyEv ⟨true, [zeroFrame], none⟩ Ev.pop) 5
        = some (5, zeroGrid) ∧
      (get_latest_matrix ⟨true, [], some zeroGrid⟩ 7 = some (7, zeroGrid) ∧
        (get_latest_matrix ⟨true, [], some zeroGrid⟩ 8).map Prod.snd
          = some zeroGrid) :=
  ⟨C5_amended_latest_grid.1 ⟨true, [zeroFrame], none⟩ zeroFrame [] zeroGrid 5
      rfl decode_zeroFrame,
    C5_amended_latest_grid.2 ⟨true, [], some zeroGrid⟩ zeroGrid 7 8 rfl⟩

-- C6 --------------------------------------------------------------------

theorem run_replicate_recv_length (n : ℕ) :
    ∀ s : PState, s.bound = true →
      ((List.replicate n (Ev.recv zeroFrame)).foldl applyEv s).queue.length
        = s.queue.length + n := by
  induction n with
  | zero => intro s _; simp
  | succ n ih =>
    intro s hb
    rw [List.replicate_succ, List.foldl_cons,
      applyEv_recv_ok s zeroFrame hb zeroFrame_length,
      ih ⟨s.bound, s.queue ++ [zeroFrame], s.latest⟩ hb]
    simp
    omega

/-- C6 counterexample: `data_buffer = Queue()` has no capacity bound; for
every candidate capacity there is an execution whose transfer queue holds
more buffered frames than the candidate, so no fixed capacity bounds the
queue in all reachable states. -/
theorem C6_counterexample :
    ¬ ∃ c : ℕ, ∀ evs : List Ev, ((run true evs).queue).length ≤ c := by
  rintro ⟨c, hc⟩
  have h := hc (List.replicate (c + 1) (Ev.recv zeroFrame))
  have hrun : run true (List.replicate (c + 1) (Ev.recv zeroFrame))
      = (List.replicate (c + 1) (Ev.recv zeroFrame)).foldl applyEv (init true) := rfl
  rw [hrun, run_replicate_recv_length (c + 1) (init true) rfl] at h
  simp [init] at h

/-- C6 amended: the transfer queue is unbounded: a push of a valid-size
frame always succeeds and appends the frame, there is no capacity and no
drop rule, and the number of buffered frames can exceed any fixed bound. -/
theorem C6_amended_unbounded :
    (∀ (s : PState) (b : List ℕ), s.bound = true →
      b.length = EXPECTED_SIZE_BYTES →
      (applyEv s (Ev.recv b)).queue = s.queue ++ [b]) ∧
    (∀ c : ℕ, ∃ evs : List Ev, c < ((run true evs).queue).length) := by
  constructor
  · intro s b hb hl
    rw [applyEv_recv_ok s b hb hl]
  · intro c
    refine ⟨List.replicate (c + 1) (Ev.recv zeroFrame), ?_⟩
    have hrun : run true (List.replicate (c + 1) (Ev.recv zeroFrame))
        = (List.replicate (c + 1) (Ev.recv zeroFrame)).foldl applyEv (init true) := rfl
    rw [hrun, run_replicate_recv_length (c + 1) (init true) rfl]
    simp [init]

theorem C6_amended_unbounded_witness :
    (applyEv (init true) (Ev.recv zeroFrame)).queue
        = (init true).queue ++ [zeroFrame] ∧
      ∃ evs : List Ev, 0 < ((run true evs).queue).length :=
  ⟨C6_amended_unbounded.1 (init true) zeroFrame rfl zeroFrame_length,
    C6_amended_unbounded.2 0⟩

-- C7 --------------------------------------------------------------------

/-- C7: if frames F1 then F2 are pushed onto the transfer queue in that
order and both decode successfully, the final published value is the
decode of F2 and (when the contents differ) never the decode of F1,
whether the decoder runs after both receives or interleaves with them. -/
theorem C7_fifo_latest_wins :
    ∀ (s : PState) (F1 F2 : List ℕ) (g1 g2 : List ℚ),
      s.bound = true → s.queue = [] →
      decode F1 = some g1 → decode F2 = some g2 →
      (List.foldl applyEv s [Ev.recv F1, Ev.recv F2, Ev.pop, Ev.pop]).latest
          = some g2 ∧
      (List.foldl applyEv s [Ev.recv F1, Ev.pop, Ev.recv F2, Ev.pop]).latest
          = some g2 ∧
      (g1 ≠ g2 →
        (List.foldl applyEv s [Ev.recv F1, Ev.recv F2, Ev.pop, Ev.pop]).latest
            ≠ some g1 ∧
        (List.foldl applyEv s [Ev.recv F1, Ev.pop, Ev.recv F2, Ev.pop]).latest
            ≠ some g1) := by
  intro s F1 F2 g1 g2 hb hq hd1 hd2
  have hl1 := decode_some_length F1 g1 hd1
  have hl2 := decode_some_length F2 g2 hd2
  have A1 : applyEv s (Ev.recv F1) = ⟨s.bound, s.queue ++ [F1], s.latest⟩ :=
    applyEv_recv_ok s F1 hb hl1
  have A2 : applyEv (⟨s.bound, s.queue ++ [F1], s.latest⟩ : PState) (Ev.recv F2)
      = ⟨s.bound, (s.queue ++ [F1]) ++ [F2], s.latest⟩ :=
    applyEv_recv_ok _ F2 hb hl2
  have hq2 : ((⟨s.bound, (s.queue ++ [F1]) ++ [F2], s.latest⟩ : PState).queue)
      = F1 :: [F2] := by
    show (s.queue ++ [F1]) ++ [F2] = F1 :: [F2]
    rw [hq]
    rfl
  have A3 : applyEv (⟨s.bound, (s.queue ++ [F1]) ++ [F2], s.latest⟩ : PState) Ev.pop
      = ⟨s.bound, [F2], some g1⟩ :=
    applyEv_pop_cons _ F1 [F2] g1 hq2 hd1
  have A4 : applyEv (⟨s.bound, [F2], some g1⟩ : PState) Ev.pop
      = ⟨s.bound, [], some g2⟩ :=
    applyEv_pop_cons _ F2 [] g2 rfl hd2
  have schedA : List.foldl applyEv s [Ev.recv F1, Ev.recv F2, Ev.pop, Ev.pop]
      = ⟨s.bound, [], some g2⟩ := by
    show applyEv (applyEv (applyEv (applyEv s (Ev.recv F1)) (Ev.recv F2)) Ev.pop)
        Ev.pop = _
    rw [A1, A2, A3, A4]
  have hq1 : ((⟨s.bound, s.queue ++ [F1], s.latest⟩ : PState).queue) = F1 :: [] := by
    show s.queue ++ [F1] = F1 :: []
    rw [hq]
    rfl
  have B2 : applyEv (⟨s.bound, s.queue ++ [F1], s.latest⟩ : PState) Ev.pop
      = ⟨s.bound, [], some g1⟩ :=
    applyEv_pop_cons _ F1 [] g1 hq1 hd1
  have B3 : applyEv (⟨s.bound, [], some g1⟩ : PState) (Ev.recv F2)
      = ⟨s.bound, [] ++ [F2], some g1⟩ :=
    applyEv_recv_ok _ F2 hb hl2
  have B4 : applyEv (⟨s.bound, [] ++ [F2], some g1⟩ : PState) Ev.pop
      = ⟨s.bound, [], some g2⟩ :=
    applyEv_pop_cons _ F2 [] g2 rfl hd2
  have schedB : List.foldl applyEv s [Ev.recv F1, Ev.pop, Ev.recv F2, Ev.pop]
      = ⟨s.bound, [], some g2⟩ := by
    show applyEv (applyEv (applyEv (applyEv s (Ev.recv F1)) Ev.pop) (Ev.recv F2))
        Ev.pop = _
    rw [A1, B2, B3, B4]
  refine ⟨by rw [schedA], by rw [schedB], fun hne => ⟨?_, ?_⟩⟩
  · rw [schedA]
    intro h
    exact hne (Option.some.inj h).symm
  · rw [schedB]
    intro h
    exact hne (Option.some.inj h).symm

theorem C7_fifo_latest_wins_witness :
    (List.foldl applyEv (init true)
        [Ev.recv zeroFrame, Ev.recv spikeFrame, Ev.pop, Ev.pop]).latest
          = some spikeGrid ∧
      (List.foldl applyEv (init true)
        [Ev.recv zeroFrame, Ev.pop, Ev.recv spikeFrame, Ev.pop]).latest
          = some spikeGrid ∧
      ((List.foldl applyEv (init true)
        [Ev.recv zeroFrame, Ev.recv spikeFrame, Ev.pop, Ev.pop]).latest
          ≠ some zeroGrid ∧
        (List.foldl applyEv (init true)
          [Ev.recv zeroFrame, Ev.pop, Ev.recv spikeFrame, Ev.pop]).latest
            ≠ some zeroGrid) := by
  have h := C7_fifo_latest_wins (init true) zeroFrame spikeFrame zeroGrid spikeGrid
    rfl rfl decode_zeroFrame decode_spikeFrame
  exact ⟨h.1, h.2.1, h.2.2 zeroGrid_ne_spikeGrid⟩

-- C8 --------------------------------------------------------------------

/-- C8: when the decoder pops a buffer whose decode fails, the
latest-state store is left unchanged, the bad buffer is removed from the
queue, and the decoder keeps processing the remaining buffers (a bad frame
is simply skipped by the drain loop). -/
theorem C8_bad_frame_skipped :
    ∀ (s : PState) (b : List ℕ) (rest : List (List ℕ)),
      s.queue = b :: rest → decode b = none →
      applyEv s Ev.pop = ⟨s.bound, rest, s.latest⟩ ∧
      (applyEv s Ev.pop).latest = s.latest ∧
      (∀ (l : Option (List ℚ)) (q : List (List ℕ)),
        drainQ l (b :: q) = drainQ l q) := by
  intro s b rest hq hd
  have e : applyEv s Ev.pop = ⟨s.bound, rest, s.latest⟩ := by
    simp only [applyEv, hq, hd]
  refine ⟨e, by rw [e], fun l q => ?_⟩
  simp only [drainQ, hd]

theorem C8_bad_frame_skipped_witness :
    applyEv ⟨true, [[0]], some zeroGrid⟩ Ev.pop = ⟨true, [], some zeroGrid⟩ ∧
      (applyEv ⟨true, [[0]], some zeroGrid⟩ Ev.pop).latest = some zeroGrid ∧
      (∀ (l : Option (List ℚ)) (q : List (List ℕ)),
        drainQ l ([0] :: q) = drainQ l q) := by
  have h := C8_bad_frame_skipped ⟨true, [[0]], some zeroGrid⟩ [0] [] rfl
    (decode_eq_none_of_length [0] (by decide))
  exact ⟨h.1, h.2.1, h.2.2⟩

-- C9 --------------------------------------------------------------------

theorem applyEv_recv_unbound (s : PState) (b : List ℕ)
    (hb : s.bound = false) : applyEv s (Ev.recv b) = s := by
  simp [applyEv, hb]

theorem unbound_foldl (evs : List Ev) :
    ∀ s : PState, s.bound = false → s.queue = [] → s.latest = none →
      (evs.foldl applyEv s).queue = [] ∧ (evs.foldl applyEv s).latest = none := by
  induction evs with
  | nil => intro s _ h1 h2; exact ⟨h1, h2⟩
  | cons e es ih =>
    intro s hb h1 h2
    rw [List.foldl_cons]
    have hstep : applyEv s e = s := by
      cases e with
      | recv b => exact applyEv_recv_unbound s b hb
      | pop => simp only [applyEv, h1]
    rw [hstep]
    exact ih s hb h1 h2

/-- C9: when the UDP socket bind fails the listener returns before its
receive loop, so no datagram is ever accepted; consequently in every
execution after a failed bind the transfer queue stays empty and no grid
is ever decoded or published. -/
theorem C9_bind_failure_no_pipeline :
    (∀ (s : PState) (b : List ℕ), s.bound = false →
      applyEv s (Ev.recv b) = s) ∧
    (∀ evs : List Ev,
      (run false evs).queue = [] ∧ (run false evs).latest = none) := by
  constructor
  · exact fun s b hb => applyEv_recv_unbound s b hb
  · exact fun evs => unbound_foldl evs (init false) rfl rfl rfl

theorem C9_bind_failure_no_pipeline_witness :
    applyEv (init false) (Ev.recv zeroFrame) = init false ∧
      ((run false [Ev.recv zeroFrame, Ev.pop]).queue = [] ∧
        (run false [Ev.recv zeroFrame, Ev.pop]).latest = none) :=
  ⟨C9_bind_failure_no_pipeline.1 (init false) zeroFrame rfl,
    C9_bind_failure_no_pipeline.2 [Ev.recv zeroFrame, Ev.pop]⟩

-- C10: the /sensor_data route -------------------------------------------

/-- Python's int() applied to a numeric value: truncation toward zero. -/
def pyInt (q : ℚ) : ℤ := if 0 ≤ q then ⌊q⌋ else ⌈q⌉

/-- The synthetic scaled samples generated by `send_sensor_data`
(server.py lines 110-114): each random draw r in [0, 1) contributes
int(r * 1000). -/
def routeValues (rs : List ℚ) : List ℤ := rs.map fun r => pyInt (r * 1000)

/-- The `/sensor_data` route (server.py lines 103-130): generate the
scaled synthetic samples, pack them with `struct.pack('<16384h', ...)`;
a `struct.error` is answered with a 500 JSON message, otherwise the binary
buffer is the response body. -/
def send_sensor_data (rs : List ℚ) : Except String (List ℕ) :=
  match struct_pack_16384h (routeValues rs) with
  | some buf => Except.ok buf
  | none => Except.error "Error packing binary data"

/-- C10: packing an array holding any value outside [-32768, 32767] fails
and produces no buffer (`struct.pack` raises rather than wrapping modulo
2^16); in the `/sensor_data` route that failure surfaces as the 500
response; and when every random draw lies in [0, 1), as `random.random()`
guarantees, the scaled values all lie in [0, 1000) and the route's own
packing succeeds. -/
theorem C10_out_of_range_pack_fails :
    (∀ vs : List ℤ, (∃ v ∈ vs, v < -32768 ∨ 32767 < v) →
      struct_pack_16384h vs = none) ∧
    (∀ rs : List ℚ, struct_pack_16384h (routeValues rs) = none →
      send_sensor_data rs = Except.error "Error packing binary data") ∧
    (∀ rs : List ℚ, rs.length = EXPECTED_ARRAY_SIZE →
      (∀ r ∈ rs, 0 ≤ r ∧ r < 1) →
      (∀ v ∈ routeValues rs, 0 ≤ v ∧ v < 1000) ∧
        ∃ buf, send_sensor_data rs = Except.ok buf) := by
  refine ⟨?_, ?_, ?_⟩
  · rintro vs ⟨v, hv, hout⟩
    unfold struct_pack_16384h
    rw [if_neg]
    rintro ⟨-, hall⟩
    have := hall v hv
    rcases hout with h | h <;> omega
  · intro rs h
    simp only [send_sensor_data, h]
  · intro rs hlen hr
    have hv : ∀ v ∈ routeValues rs, 0 ≤ v ∧ v < 1000 := by
      intro v hvmem
      simp only [routeValues, List.mem_map] at hvmem
      obtain ⟨r, hrmem, rfl⟩ := hvmem
      obtain ⟨h0, h1⟩ := hr r hrmem
      have h0m : (0 : ℚ) ≤ r * 1000 := mul_nonneg h0 (by norm_num)
      have h1m : r * 1000 < 1000 := by
        calc r * 1000 < 1 * 1000 := by
              exact mul_lt_mul_of_pos_right h1 (by norm_num)
          _ = 1000 := by norm_num
      rw [pyInt, if_pos h0m]
      constructor
      · exact Int.le_floor.mpr (by exact_mod_cast h0m)
      · exact Int.floor_lt.mpr (by exact_mod_cast h1m)
    have hrange16 : ∀ v ∈ routeValues rs, -32768 ≤ v ∧ v ≤ 32767 := by
      intro v hvmem
      obtain ⟨a, b⟩ := hv v hvmem
      omega
    have hlen2 : (routeValues rs).length = EXPECTED_ARRAY_SIZE := by
      simp [routeValues, hlen]
    have hp : struct_pack_16384h (routeValues rs)
        = some (packBytes (routeValues rs)) := by
      unfold struct_pack_16384h
      rw [if_pos ⟨hlen2, hrange16⟩]
    exact ⟨hv, packBytes (routeValues rs), by simp only [send_sensor_data, hp]⟩

theorem C10_out_of_range_pack_fails_witness :
    struct_pack_16384h [40000] = none ∧
      send_sensor_data [] = Except.error "Error packing binary data" ∧
      ((∀ v ∈ routeValues (List.replicate EXPECTED_ARRAY_SIZE (1 / 2 : ℚ)),
          0 ≤ v ∧ v < 1000) ∧
        ∃ buf, send_sensor_data (List.replicate EXPECTED_ARRAY_SIZE (1 / 2 : ℚ))
          = Except.ok buf) := by
  refine ⟨?_, ?_, ?_⟩
  · exact C10_out_of_range_pack_fails.1 [40000]
      ⟨40000, by simp, by norm_num⟩
  · exact C10_out_of_range_pack_fails.2.1 [] (by decide)
  · exact C10_out_of_range_pack_fails.2.2
      (List.replicate EXPECTED_ARRAY_SIZE (1 / 2 : ℚ)) (by simp)
      (by intro r hrmem; rw [List.eq_of_mem_replicate hrmem]; norm_num)
